import Mathlib

/-!
Shallow embedding of the reactive subscription/unsubscription lifecycle of
the pg-lite todo application (src/db/worker.ts, src/db/client.ts,
src/db/repositories/todos.ts, src/db/schema.ts), together with the todos
table it watches, and proofs of the lifecycle properties stated by the
specification.

Modelling conventions:
* `crypto.randomUUID()` produces fresh, unguessable, never-repeating
  identifiers; it is modelled by the counter `nextSubId` (freshness is the
  only property the code relies on).
* Each handle returned by `live.query` (its `unsubscribe` teardown action)
  is a distinct closure; handles are modelled by fresh tokens drawn from
  the counter `nextTd`.
* The worker's `liveSubscriptions` JS `Map` is modelled as an association
  list in insertion order (JS `Map` iterates in insertion order);
  `Map.set` with a fresh key appends, `Map.delete` removes the single
  entry with that key (`List.eraseP` of the first match).
* Observable callback and teardown activity is recorded in an event log:
  one event per render-callback invocation (tagged with the subscription
  it belongs to and the rows delivered) and one per teardown invocation.
* A thrown JS exception is modelled as `Except.error` paired with the
  state at the moment of the throw; in every operation of this code all
  state mutations happen after the last possible throw, which the
  error-path theorems below verify.
-/

namespace TodoApp

/-- Row of the `todos` table (src/db/schema.ts `todosTable`):
`id INTEGER PRIMARY KEY GENERATED ALWAYS AS IDENTITY`,
`description VARCHAR(255) NOT NULL`,
`completed BOOLEAN NOT NULL DEFAULT false`. -/
structure Todo where
  id : Nat
  description : String
  completed : Bool
deriving Repr, DecidableEq

/-- State of the `todos` table: the identity counter (Postgres identity
columns start at 1) and the stored rows in insertion (heap) order. -/
structure DbState where
  nextId : Nat
  rows : List Todo
deriving Repr, DecidableEq

/-- Observable events of the subscription lifecycle. -/
inductive Event where
  /-- An entry was stored in the `liveSubscriptions` map
  (`liveSubscriptions.set(subscriptionId, ...)`). -/
  | registered (subId : Nat)
  /-- The subscriber's callback was invoked with the initial result set
  (`callback(liveQuery.initialResults.rows)`). -/
  | initialCallback (subId : Nat) (rows : List Todo)
  /-- The subscriber's callback was invoked by the live extension after a
  data change (`(results) => { callback(results.rows) }`). -/
  | changeCallback (subId : Nat) (rows : List Todo)
  /-- A stored teardown action was invoked (`await sub.unsubscribe()`). -/
  | teardownInvoked (td : Nat)
deriving Repr, DecidableEq

/-- State of the `DatabaseWorker` (src/db/worker.ts): whether `init` has
completed (`this.client`/`this.db` non-null), the todos table, the fresh
identifier and teardown-token supplies, the `liveSubscriptions` map, and
the log of observable events. -/
structure WorkerState where
  dbInit : Bool
  db : DbState
  nextSubId : Nat
  nextTd : Nat
  subs : List (Nat × Nat)
  log : List Event
deriving Repr, DecidableEq

/-- Ordering used by the watched query `SELECT * FROM todos ORDER BY id
DESC`: `a` may come before `b` when `b.id ≤ a.id`. -/
def idGe (a b : Todo) : Prop := b.id ≤ a.id

instance : DecidableRel idGe := fun a b => Nat.decLe b.id a.id

instance : IsTotal Todo idGe := ⟨fun a b => Nat.le_total b.id a.id⟩

instance : IsTrans Todo idGe :=
  ⟨fun _ _ _ hab hbc => Nat.le_trans hbc hab⟩

/-- Result set of `SELECT * FROM todos ORDER BY id DESC` over the current
rows (the query string appears in `DatabaseWorker.subscribeTodos`,
`TodoRepository.getAll` and `TodoRepository.subscribe`). -/
def sortByIdDesc (rows : List Todo) : List Todo := rows.insertionSort idGe

/-- Result of `TodoRepository.getAll`:
`SELECT * FROM todos ORDER BY id DESC` (src/db/repositories/todos.ts). -/
def repGetAll (db : DbState) : List Todo := sortByIdDesc db.rows

/-- The live extension re-runs the watched query after a data change and
invokes every active subscription's callback with the full current result
set (`(results) => { callback(results.rows) }` in `subscribeTodos`). -/
def notify (st : WorkerState) : WorkerState :=
  { st with
    log := st.log ++
      st.subs.map (fun p => Event.changeCallback p.1 (sortByIdDesc st.db.rows)) }

/-- Translation of `DatabaseWorker.addTodo` (src/db/worker.ts lines
80-87): throw when the db is not initialized; the `VARCHAR(255)` column
rejects descriptions longer than 255 characters; otherwise insert a row
with the next identity value and the schema default `completed = false`,
and return it (`.returning()`, `result[0]`). -/
def addTodo (st : WorkerState) (desc : String) :
    WorkerState × Except String Todo :=
  if st.dbInit = false then (st, .error "Database not initialized")
  else if 255 < desc.length then
    (st, .error "value too long for type character varying(255)")
  else
    let t : Todo := { id := st.db.nextId, description := desc, completed := false }
    let st1 := { st with db := { nextId := st.db.nextId + 1, rows := st.db.rows ++ [t] } }
    (notify st1, .ok t)

/-- Translation of `DatabaseWorker.toggleTodo` (src/db/worker.ts lines
89-102): throw when the db is not initialized; select the row with the
given id; only if one exists, update every row matching the id
(`UPDATE ... WHERE id = $1`) to the negated completed flag. -/
def toggleTodo (st : WorkerState) (id : Nat) :
    WorkerState × Except String Unit :=
  if st.dbInit = false then (st, .error "Database not initialized")
  else
    match st.db.rows.find? (fun r => r.id == id) with
    | some _ =>
        let st1 := { st with
          db := { st.db with
            rows := st.db.rows.map (fun r =>
              if r.id == id then { r with completed := !r.completed } else r) } }
        (notify st1, .ok ())
    | none => (st, .ok ())

/-- Translation of `DatabaseWorker.deleteTodo` (src/db/worker.ts lines
104-107): throw when the db is not initialized; otherwise delete every
row matching the id. -/
def deleteTodo (st : WorkerState) (id : Nat) :
    WorkerState × Except String Unit :=
  if st.dbInit = false then (st, .error "Database not initialized")
  else
    let st1 := { st with
      db := { st.db with rows := st.db.rows.filter (fun r => r.id != id) } }
    (notify st1, .ok ())

/-- Translation of `DatabaseWorker.subscribeTodos` (src/db/worker.ts lines
121-161): throw when the db is not initialized; generate a fresh
identifier; establish the live query (`estOk` says whether the external
live extension accepts the watch request — when it rejects, the awaited
promise's exception propagates before any mutation); then store the
teardown handle in `liveSubscriptions` (line 152), then invoke the
callback once with the initial results (line 157), then return the
identifier (line 160). -/
def subscribeTodos (st : WorkerState) (estOk : Bool) :
    WorkerState × Except String Nat :=
  if st.dbInit = false then (st, .error "Database not initialized")
  else if estOk = false then (st, .error "live query establishment failed")
  else
    let s := st.nextSubId
    let td := st.nextTd
    let initialRows := sortByIdDesc st.db.rows
    ({ st with
        nextSubId := s + 1
        nextTd := td + 1
        subs := st.subs ++ [(s, td)]
        log := st.log ++ [Event.registered s, Event.initialCallback s initialRows] },
      .ok s)

/-- Lookup of `liveSubscriptions.get(subscriptionId)`: the teardown token
of the entry with the given key. -/
def lookupSub (subs : List (Nat × Nat)) (s : Nat) : Option Nat :=
  (subs.find? (fun p => p.1 == s)).map Prod.snd

/-- Translation of `DatabaseWorker.unsubscribe` (src/db/worker.ts lines
166-173): if the identifier is present, invoke its stored teardown action
and delete the entry; otherwise do nothing. The operation is total: it
never throws. -/
def unsubscribe (st : WorkerState) (s : Nat) : WorkerState :=
  match lookupSub st.subs s with
  | some td =>
      { st with
        subs := st.subs.eraseP (fun p => p.1 == s)
        log := st.log ++ [Event.teardownInvoked td] }
  | none => st

/-- Translation of `DatabaseWorker.cleanup` (src/db/worker.ts lines
178-184): iterate over all entries in insertion order, invoke each
stored teardown action and delete each entry; the map ends empty. -/
def cleanup (st : WorkerState) : WorkerState :=
  { st with
    subs := []
    log := st.log ++ st.subs.map (fun p => Event.teardownInvoked p.2) }

/-- Iterated `unsubscribe` with the same identifier. -/
def iterUnsub (st : WorkerState) (s : Nat) : Nat → WorkerState
  | 0 => st
  | n + 1 => iterUnsub (unsubscribe st s) s n

/-- One worker-facing operation (the calls the main thread can make). -/
inductive Op where
  | add (desc : String)
  | toggle (id : Nat)
  | del (id : Nat)
  | subscribeOp (estOk : Bool)
  | unsub (s : Nat)
  | cleanupOp
deriving Repr, DecidableEq

/-- State transition of one operation (the state part; a thrown error
leaves the state as built up to the throw, which for this code is the
input state). -/
def step (st : WorkerState) : Op → WorkerState
  | .add desc => (addTodo st desc).1
  | .toggle id => (toggleTodo st id).1
  | .del id => (deleteTodo st id).1
  | .subscribeOp estOk => (subscribeTodos st estOk).1
  | .unsub s => unsubscribe st s
  | .cleanupOp => cleanup st

/-- Run of a sequence of operations. -/
def run (st : WorkerState) (ops : List Op) : WorkerState := ops.foldl step st

/-- Worker state right after a successful `init` (src/db/worker.ts lines
45-70): table created empty, identity counter at 1, no subscriptions. -/
def wInit : WorkerState :=
  { dbInit := true, db := { nextId := 1, rows := [] },
    nextSubId := 0, nextTd := 0, subs := [], log := [] }

/-- Worker state before `init` has completed (`this.client` and `this.db`
still null). -/
def wUninit : WorkerState := { wInit with dbInit := false }

/-- State of the main-thread `DatabaseClient` (src/db/client.ts lines
230-319): the wrapped worker and the single mutable field
`this.subscriptionId` shared by all unsubscribe closures. -/
structure ClientState where
  worker : WorkerState
  subscriptionId : Option Nat
deriving Repr, DecidableEq

/-- Translation of `DatabaseClient.subscribe` (src/db/client.ts lines
294-310): call `worker.subscribeTodos` and store the returned identifier
in the shared field `this.subscriptionId`. -/
def clientSubscribe (cs : ClientState) : ClientState × Except String Unit :=
  match subscribeTodos cs.worker true with
  | (w1, .ok s) => ({ worker := w1, subscriptionId := some s }, .ok ())
  | (w1, .error e) => ({ cs with worker := w1 }, .error e)

/-- Behaviour of every unsubscribe closure returned by
`DatabaseClient.subscribe` (src/db/client.ts lines 304-309): all closures
read the one shared field `this.subscriptionId`, so they are behaviourally
identical; if the field is set, call `worker.unsubscribe` on it and null
the field, else do nothing. -/
def runUnsubClosure (cs : ClientState) : ClientState :=
  match cs.subscriptionId with
  | some s => { worker := unsubscribe cs.worker s, subscriptionId := none }
  | none => cs

/-- Client state right after construction and worker init. -/
def cInit : ClientState := { worker := wInit, subscriptionId := none }

/-- Predicate of `Event.registered` events for a given subscription. -/
def isRegisteredFor (s : Nat) : Event → Bool
  | .registered t => t == s
  | _ => false

/-- Predicate of `Event.initialCallback` events for a given subscription. -/
def isInitialFor (s : Nat) : Event → Bool
  | .initialCallback t _ => t == s
  | _ => false

/-- Predicate of callback-invocation events (initial or change-triggered)
belonging to a given subscription. -/
def isCallbackFor (s : Nat) : Event → Bool
  | .initialCallback t _ => t == s
  | .changeCallback t _ => t == s
  | _ => false

/-- The callback invocations delivered to one subscription, in order. -/
def cbEventsFor (s : Nat) (l : List Event) : List Event :=
  l.filter (isCallbackFor s)

/-- Test for change-triggered callback events. -/
def isChangeCb : Event → Bool
  | .changeCallback _ _ => true
  | _ => false

/-- Rows carried by a callback-invocation event, if any. -/
def rowsDelivered : Event → Option (List Todo)
  | .initialCallback _ rows => some rows
  | .changeCallback _ rows => some rows
  | _ => none

/-- Strictly descending by id: every row's id is greater than the next
row's id. -/
def StrictDesc (l : List Todo) : Prop :=
  l.Chain' (fun a b => b.id < a.id)

/-- Well-formedness of a worker state. Every state the worker can actually
reach satisfies it: identifiers and teardown tokens are drawn fresh, so
stored ones are below the counters and pairwise distinct, and the log only
mentions identifiers and tokens already handed out. -/
structure WF (st : WorkerState) : Prop where
  ids_lt : ∀ p ∈ st.subs, p.1 < st.nextSubId
  tds_lt : ∀ p ∈ st.subs, p.2 < st.nextTd
  tds_nodup : (st.subs.map Prod.snd).Nodup
  log_tds_lt : ∀ e ∈ st.log, ∀ td, e = Event.teardownInvoked td → td < st.nextTd
  log_cbs_lt : ∀ e ∈ st.log, ∀ s, isCallbackFor s e = true → s < st.nextSubId

/-! ### Helper lemmas -/

/-- Worker state produced by a successful `subscribeTodos` call. -/
def subOk (st : WorkerState) : WorkerState :=
  { st with
    nextSubId := st.nextSubId + 1
    nextTd := st.nextTd + 1
    subs := st.subs ++ [(st.nextSubId, st.nextTd)]
    log := st.log ++ [Event.registered st.nextSubId,
      Event.initialCallback st.nextSubId (sortByIdDesc st.db.rows)] }

lemma subscribeTodos_eq (st : WorkerState) (hinit : st.dbInit = true) :
    subscribeTodos st true = (subOk st, Except.ok st.nextSubId) := by
  simp [subscribeTodos, subOk, hinit]

lemma subscribeTodos_ok_inv {st st1 : WorkerState} {s : Nat}
    (h : subscribeTodos st true = (st1, Except.ok s)) :
    st.dbInit = true ∧ st1 = subOk st ∧ s = st.nextSubId := by
  cases hinit : st.dbInit
  case false => simp [subscribeTodos, hinit] at h
  case true =>
    rw [subscribeTodos_eq st hinit] at h
    have h1 := congrArg Prod.fst h
    have h2 := congrArg Prod.snd h
    simp only [] at h1 h2
    exact ⟨rfl, h1.symm, (Except.ok.inj h2).symm⟩

lemma wf_wInit : WF wInit := by
  constructor <;> simp [wInit]

lemma iterUnsub_fixed {st : WorkerState} {s : Nat}
    (h : unsubscribe st s = st) : ∀ n, iterUnsub st s n = st := by
  intro n
  induction n with
  | zero => rfl
  | succ n ih => simpa [iterUnsub, h] using ih

lemma find?_subs_none {subs : List (Nat × Nat)} {s : Nat}
    (h : ∀ p ∈ subs, p.1 ≠ s) :
    subs.find? (fun p => p.1 == s) = none :=
  List.find?_eq_none.mpr (by intro p hp; simp [h p hp])

/-! ### Claim C3 -/

/-- Claim C3 (counterexample): the claim says the initial-callback step
precedes the registration step. On a concrete successful subscribe from
the freshly initialized worker, the `registered` event comes first in the
log, so the initial callback does NOT precede registration (`findIdx` of
the initial-callback event is not smaller than that of the registration
event, and both events are present). -/
theorem initial_callback_precedes_registration_false :
    (subscribeTodos wInit true).2 = Except.ok 0 ∧
    (subscribeTodos wInit true).1.log.findIdx (isRegisteredFor 0) = 0 ∧
    (subscribeTodos wInit true).1.log.findIdx (isInitialFor 0) = 1 ∧
    ¬ ((subscribeTodos wInit true).1.log.findIdx (isInitialFor 0) <
        (subscribeTodos wInit true).1.log.findIdx (isRegisteredFor 0)) :=
  ⟨rfl, by decide, by decide, by decide⟩

/-- Claim C3 (amended): on every successful subscribe the component first
registers the teardown handle in the registry (the `registered` event),
then invokes the render callback once with the initial result set, and
then returns the identifier: in the events emitted by the call, the
registration step strictly precedes the initial-callback step, and the
new identifier is present in the registry with its teardown token. -/
theorem registration_precedes_initial_callback (st st1 : WorkerState) (s : Nat)
    (h : subscribeTodos st true = (st1, Except.ok s)) :
    (st1.log.drop st.log.length).findIdx (isRegisteredFor s) <
      (st1.log.drop st.log.length).findIdx (isInitialFor s) ∧
    (s, st.nextTd) ∈ st1.subs := by
  obtain ⟨hinit, hst1, hs⟩ := subscribeTodos_ok_inv h
  subst hst1; subst hs
  constructor
  · have hdrop : (subOk st).log.drop st.log.length =
        [Event.registered st.nextSubId,
          Event.initialCallback st.nextSubId (sortByIdDesc st.db.rows)] := by
      simp [subOk]
    rw [hdrop]
    simp [List.findIdx_cons, isRegisteredFor, isInitialFor]
  · simp [subOk]

/-- Witness for `registration_precedes_initial_callback` at the freshly
initialized worker. -/
theorem registration_precedes_initial_callback_witness :
    ((subOk wInit).log.drop wInit.log.length).findIdx (isRegisteredFor 0) <
      ((subOk wInit).log.drop wInit.log.length).findIdx (isInitialFor 0) ∧
    (0, wInit.nextTd) ∈ (subOk wInit).subs :=
  registration_precedes_initial_callback wInit (subOk wInit) 0
    (subscribeTodos_eq wInit rfl)

/-! ### Claim C4 -/

/-- Claim C4: when establishing a subscription fails — in particular when
the database is not initialized — the failure is surfaced to the caller
as an error, and on every failed subscribe call the registry's
identifier-to-teardown map (indeed the whole worker state) is unchanged. -/
theorem subscribe_failure_registry_unchanged (st : WorkerState) (estOk : Bool) :
    (st.dbInit = false →
      (subscribeTodos st estOk).2 = Except.error "Database not initialized") ∧
    (∀ e, (subscribeTodos st estOk).2 = Except.error e →
      (subscribeTodos st estOk).1.subs = st.subs ∧
      (subscribeTodos st estOk).1 = st) := by
  by_cases h1 : st.dbInit = false <;> by_cases h2 : estOk = false <;>
    simp [subscribeTodos, h1, h2]

/-- Witness for `subscribe_failure_registry_unchanged` at the
uninitialized worker. -/
theorem subscribe_failure_registry_unchanged_witness :
    (subscribeTodos wUninit true).2 = Except.error "Database not initialized" ∧
    (subscribeTodos wUninit true).1.subs = wUninit.subs ∧
    (subscribeTodos wUninit true).1 = wUninit :=
  have herr := (subscribe_failure_registry_unchanged wUninit true).1 rfl
  have h := (subscribe_failure_registry_unchanged wUninit true).2
    "Database not initialized" herr
  ⟨herr, h.1, h.2⟩

/-! ### Claim C5 -/

/-- Claim C5: calling `unsubscribe` with an identifier that is not in the
registry (never registered, or already unregistered) leaves the whole
worker state unchanged — no teardown action is invoked, nothing is logged,
and the registry map is untouched. The operation is a total function, so
it returns without throwing. -/
theorem unregister_absent_id_noop (st : WorkerState) (s : Nat)
    (h : ∀ p ∈ st.subs, p.1 ≠ s) : unsubscribe st s = st := by
  simp [unsubscribe, lookupSub, find?_subs_none h]

/-- Witness for `unregister_absent_id_noop`: unregistering the
never-registered identifier 0 on the freshly initialized worker is an
identity. -/
theorem unregister_absent_id_noop_witness :
    (∀ p ∈ wInit.subs, p.1 ≠ 0) ∧ unsubscribe wInit 0 = wInit :=
  ⟨by simp [wInit], unregister_absent_id_noop wInit 0 (by simp [wInit])⟩

/-! ### Claim C8 -/

/-- Claim C8 (counterexample): the claim says every accepted description
is non-empty (1..255 characters). But `addTodo` on the initialized worker
accepts the empty string: the insert succeeds, the stored row's
description is `""` of length 0, which is not at least 1. Non-emptiness
is only enforced by the UI's `input.value.trim()` check, outside
`addTodo`. -/
theorem addTodo_accepts_empty_description :
    (addTodo wInit "").2 =
      Except.ok { id := 1, description := "", completed := false } ∧
    { id := 1, description := "", completed := false } ∈
      (addTodo wInit "").1.db.rows ∧
    ¬ (1 ≤ ("" : String).length) :=
  ⟨rfl, by decide, by decide⟩

/-- Claim C8 (amended): `addTodo` accepts exactly the descriptions of at
most 255 characters (on an initialized database; the `VARCHAR(255)`
column rejects longer ones), and every row it creates stores the given
description unchanged with the schema default `completed = false`; the
created row is returned and stored. Non-emptiness of the description is
not guaranteed by `addTodo`. -/
theorem addTodo_stores_description_within_limit (st : WorkerState)
    (desc : String) :
    (∀ t, (addTodo st desc).2 = Except.ok t →
      desc.length ≤ 255 ∧ t.description = desc ∧ t.completed = false ∧
      t ∈ (addTodo st desc).1.db.rows) ∧
    (st.dbInit = true → desc.length ≤ 255 →
      (addTodo st desc).2 =
        Except.ok { id := st.db.nextId, description := desc, completed := false }) := by
  by_cases h1 : st.dbInit = false <;> by_cases h2 : 255 < desc.length <;>
    simp [addTodo, notify, h1, h2]
  omega

/-- Witness for `addTodo_stores_description_within_limit` on the concrete
description "hi". -/
theorem addTodo_stores_description_within_limit_witness :
    ("hi" : String).length ≤ 255 ∧
    ({ id := 1, description := "hi", completed := false } : Todo).completed = false ∧
    { id := 1, description := "hi", completed := false } ∈
      (addTodo wInit "hi").1.db.rows :=
  have hok := (addTodo_stores_description_within_limit wInit "hi").2 rfl (by decide)
  have h := (addTodo_stores_description_within_limit wInit "hi").1 _ hok
  ⟨h.1, h.2.2.1, h.2.2.2⟩

/-! ### Claim C9 -/

/-- Claim C9: toggling an id that is not present in the todos table is a
silent no-op: the call completes without error, performs no update, emits
no change notification, and leaves the whole worker state (in particular
every row of the table) unchanged. -/
theorem toggle_absent_id_noop (st : WorkerState) (id : Nat)
    (hinit : st.dbInit = true) (h : ∀ r ∈ st.db.rows, r.id ≠ id) :
    toggleTodo st id = (st, Except.ok ()) := by
  have hf : st.db.rows.find? (fun r => r.id == id) = none :=
    List.find?_eq_none.mpr (by intro r hr; simp [h r hr])
  simp [toggleTodo, hinit, hf]

/-- Witness for `toggle_absent_id_noop`: toggling the absent id 5 on the
freshly initialized worker returns ok and changes nothing. -/
theorem toggle_absent_id_noop_witness :
    wInit.dbInit = true ∧ (∀ r ∈ wInit.db.rows, r.id ≠ 5) ∧
    toggleTodo wInit 5 = (wInit, Except.ok ()) :=
  ⟨rfl, by simp [wInit], toggle_absent_id_noop wInit 5 rfl (by simp [wInit])⟩

/-! ### Claim C1 -/

/-- Worker state after registering a subscription and then unregistering
it once: the registry entry is gone and exactly one teardown invocation
was logged. -/
def subThenUnsub (st : WorkerState) : WorkerState :=
  { st with
    nextSubId := st.nextSubId + 1
    nextTd := st.nextTd + 1
    log := st.log ++ [Event.registered st.nextSubId,
      Event.initialCallback st.nextSubId (sortByIdDesc st.db.rows),
      Event.teardownInvoked st.nextTd] }

lemma unsubscribe_subOk (st : WorkerState) (hWF : WF st) :
    unsubscribe (subOk st) st.nextSubId = subThenUnsub st := by
  have hnone : st.subs.find? (fun p => p.1 == st.nextSubId) = none :=
    find?_subs_none (fun p hp => Nat.ne_of_lt (hWF.ids_lt p hp))
  have hne : ∀ p ∈ st.subs, ¬ (fun p : Nat × Nat => p.1 == st.nextSubId) p := by
    intro p hp
    simp [Nat.ne_of_lt (hWF.ids_lt p hp)]
  unfold unsubscribe lookupSub
  rw [show (subOk st).subs = st.subs ++ [(st.nextSubId, st.nextTd)] from rfl,
    List.find?_append, hnone]
  simp only [Option.none_or, List.find?_cons, subThenUnsub, subOk]
  rw [List.eraseP_append_right _ hne]
  simp [List.append_assoc]

lemma unsubscribe_subThenUnsub (st : WorkerState) (hWF : WF st) :
    unsubscribe (subThenUnsub st) st.nextSubId = subThenUnsub st := by
  have hnone : st.subs.find? (fun p => p.1 == st.nextSubId) = none :=
    find?_subs_none (fun p hp => Nat.ne_of_lt (hWF.ids_lt p hp))
  simp [unsubscribe, lookupSub, subThenUnsub, hnone]

/-- Claim C1: after a register (successful subscribe) followed by an
unregister of the returned identifier, the registered teardown action has
been invoked exactly once, no matter how many additional unregister calls
with the same identifier follow; every additional call is an identity on
the state (a no-op, and unsubscribe is a total function, hence no
error). -/
theorem teardown_invoked_exactly_once (st st1 : WorkerState) (s n : Nat)
    (hWF : WF st) (h : subscribeTodos st true = (st1, Except.ok s)) :
    (iterUnsub st1 s (n + 1)).log.count (Event.teardownInvoked st.nextTd) = 1 ∧
    unsubscribe (iterUnsub st1 s (n + 1)) s = iterUnsub st1 s (n + 1) := by
  obtain ⟨hinit, hst1, hs⟩ := subscribeTodos_ok_inv h
  subst hst1; subst hs
  have hiter : iterUnsub (subOk st) st.nextSubId (n + 1) = subThenUnsub st := by
    show iterUnsub (unsubscribe (subOk st) st.nextSubId) st.nextSubId n = _
    rw [unsubscribe_subOk st hWF]
    exact iterUnsub_fixed (unsubscribe_subThenUnsub st hWF) n
  rw [hiter]
  refine ⟨?_, unsubscribe_subThenUnsub st hWF⟩
  have hmem0 : Event.teardownInvoked st.nextTd ∉ st.log := by
    intro hmem
    have := hWF.log_tds_lt _ hmem st.nextTd rfl
    omega
  rw [show (subThenUnsub st).log = st.log ++ [Event.registered st.nextSubId,
      Event.initialCallback st.nextSubId (sortByIdDesc st.db.rows),
      Event.teardownInvoked st.nextTd] from rfl]
  rw [List.count_append, List.count_eq_zero.mpr hmem0]
  simp [List.count_cons]

/-- Witness for `teardown_invoked_exactly_once` at the freshly
initialized worker, with one extra unregister call. -/
theorem teardown_invoked_exactly_once_witness :
    (iterUnsub (subOk wInit) 0 2).log.count (Event.teardownInvoked 0) = 1 ∧
    unsubscribe (iterUnsub (subOk wInit) 0 2) 0 = iterUnsub (subOk wInit) 0 2 :=
  teardown_invoked_exactly_once wInit (subOk wInit) 0 1 wf_wInit
    (subscribeTodos_eq wInit rfl)

/-! ### Claim C2 -/

/-- Claim C2 (counterexample): the claim says tearing one subscription
down via its unsubscribe function does not tear down or alter the other.
But every unsubscribe closure returned by `DatabaseClient.subscribe`
reads the client's single shared `subscriptionId` field. Subscribing
twice from the fresh client creates worker subscriptions 0 (teardown
token 0) and 1 (teardown token 1); invoking the unsubscribe function
returned by the FIRST subscribe then tears down the SECOND subscription:
teardown 1 is invoked and entry (1, 1) is removed, while entry (0, 0)
stays registered; and because the shared field is now null, a further
closure invocation is a no-op, so teardown 0 is never invoked. -/
theorem client_unsubscribe_closures_entangled :
    ((runUnsubClosure (clientSubscribe (clientSubscribe cInit).1).1).worker.subs
        = [(0, 0)]) ∧
    (Event.teardownInvoked 1 ∈
      (runUnsubClosure (clientSubscribe (clientSubscribe cInit).1).1).worker.log) ∧
    (Event.teardownInvoked 0 ∉
      (runUnsubClosure (clientSubscribe (clientSubscribe cInit).1).1).worker.log) ∧
    (runUnsubClosure (runUnsubClosure (clientSubscribe (clientSubscribe cInit).1).1)
        = runUnsubClosure (clientSubscribe (clientSubscribe cInit).1).1) := by
  refine ⟨by decide, by decide, by decide, ?_⟩
  decide

/-- Claim C2 (amended): at the worker level, two distinct subscriptions
established by `subscribeTodos` (for the same query) are independent:
they receive distinct identifiers, each gets its own initial callback
event tagged with its own identifier, and unsubscribing the first
identifier neither removes the second subscription's registry entry nor
invokes the second subscription's teardown action. The unsubscribe
closures returned by `DatabaseClient.subscribe`, however, all share the
client's single `subscriptionId` field, so closure-level independence
holds only for single-subscription use. -/
theorem worker_subscriptions_independent (st : WorkerState) (hWF : WF st)
    (hinit : st.dbInit = true) :
    subscribeTodos st true = (subOk st, Except.ok st.nextSubId) ∧
    subscribeTodos (subOk st) true =
      (subOk (subOk st), Except.ok (st.nextSubId + 1)) ∧
    st.nextSubId ≠ st.nextSubId + 1 ∧
    cbEventsFor st.nextSubId ((subOk (subOk st)).log.drop st.log.length) =
      [Event.initialCallback st.nextSubId (sortByIdDesc st.db.rows)] ∧
    cbEventsFor (st.nextSubId + 1) ((subOk (subOk st)).log.drop st.log.length) =
      [Event.initialCallback (st.nextSubId + 1) (sortByIdDesc st.db.rows)] ∧
    (st.nextSubId + 1, st.nextTd + 1) ∈
      (unsubscribe (subOk (subOk st)) st.nextSubId).subs ∧
    Event.teardownInvoked (st.nextTd + 1) ∉
      (unsubscribe (subOk (subOk st)) st.nextSubId).log := by
  have hinit2 : (subOk st).dbInit = true := hinit
  have hdb : (subOk st).db = st.db := rfl
  have hdrop : (subOk (subOk st)).log.drop st.log.length =
      [Event.registered st.nextSubId,
        Event.initialCallback st.nextSubId (sortByIdDesc st.db.rows),
        Event.registered (st.nextSubId + 1),
        Event.initialCallback (st.nextSubId + 1) (sortByIdDesc st.db.rows)] := by
    show (st.log ++ [Event.registered st.nextSubId,
        Event.initialCallback st.nextSubId (sortByIdDesc st.db.rows)] ++ _).drop
        st.log.length = _
    rw [List.append_assoc, List.drop_left]
    rfl
  have hnone : st.subs.find? (fun p => p.1 == st.nextSubId) = none :=
    find?_subs_none (fun p hp => Nat.ne_of_lt (hWF.ids_lt p hp))
  have hne : ∀ p ∈ st.subs, ¬ (fun p : Nat × Nat => p.1 == st.nextSubId) p := by
    intro p hp
    simp [Nat.ne_of_lt (hWF.ids_lt p hp)]
  have hfind : (subOk (subOk st)).subs.find? (fun p => p.1 == st.nextSubId) =
      some (st.nextSubId, st.nextTd) := by
    show ((st.subs ++ [(st.nextSubId, st.nextTd)]) ++ _).find? _ = _
    rw [List.append_assoc, List.find?_append, hnone]
    simp
  have herase : (subOk (subOk st)).subs.eraseP (fun p => p.1 == st.nextSubId) =
      st.subs ++ [(st.nextSubId + 1, st.nextTd + 1)] := by
    show ((st.subs ++ [(st.nextSubId, st.nextTd)]) ++ _).eraseP _ = _
    rw [List.append_assoc, List.eraseP_append_right _ hne]
    simp [subOk]
  have hunsub : unsubscribe (subOk (subOk st)) st.nextSubId =
      { subOk (subOk st) with
        subs := st.subs ++ [(st.nextSubId + 1, st.nextTd + 1)]
        log := (subOk (subOk st)).log ++ [Event.teardownInvoked st.nextTd] } := by
    simp [unsubscribe, lookupSub, hfind, herase]
  refine ⟨subscribeTodos_eq st hinit, ?_, by omega, ?_, ?_, ?_, ?_⟩
  · exact subscribeTodos_eq (subOk st) hinit2
  · rw [hdrop]
    simp [cbEventsFor, isCallbackFor]
  · rw [hdrop]
    simp [cbEventsFor, isCallbackFor]
  · rw [hunsub]
    simp
  · rw [hunsub]
    have h0 : Event.teardownInvoked (st.nextTd + 1) ∉ st.log := by
      intro hmem
      have := hWF.log_tds_lt _ hmem (st.nextTd + 1) rfl
      omega
    simp only [subOk, List.append_assoc, List.mem_append]
    intro hmem
    rcases hmem with h | h
    · exact h0 h
    · simp at h

/-- Witness for `worker_subscriptions_independent` at the freshly
initialized worker. -/
theorem worker_subscriptions_independent_witness :
    subscribeTodos wInit true = (subOk wInit, Except.ok 0) ∧
    subscribeTodos (subOk wInit) true = (subOk (subOk wInit), Except.ok 1) ∧
    (0 : Nat) ≠ 1 ∧
    cbEventsFor 0 ((subOk (subOk wInit)).log.drop wInit.log.length) =
      [Event.initialCallback 0 (sortByIdDesc wInit.db.rows)] ∧
    cbEventsFor 1 ((subOk (subOk wInit)).log.drop wInit.log.length) =
      [Event.initialCallback 1 (sortByIdDesc wInit.db.rows)] ∧
    (1, 1) ∈ (unsubscribe (subOk (subOk wInit)) 0).subs ∧
    Event.teardownInvoked 1 ∉ (unsubscribe (subOk (subOk wInit)) 0).log :=
  worker_subscriptions_independent wInit wf_wInit rfl

/-! ### Claim C6 -/

lemma teardownInvoked_injective : Function.Injective Event.teardownInvoked := by
  intro a b h
  injection h

/-- Claim C6: `cleanup` with N active subscriptions leaves the registry
empty, logs exactly N teardown invocations, every one of them the
teardown of one of the N registered entries, and each registered entry's
teardown action is invoked exactly once. -/
theorem cleanup_invokes_all_teardowns (st : WorkerState) (hWF : WF st) :
    (cleanup st).subs = [] ∧
    ((cleanup st).log.drop st.log.length).length = st.subs.length ∧
    (∀ e ∈ (cleanup st).log.drop st.log.length,
      ∃ p ∈ st.subs, e = Event.teardownInvoked p.2) ∧
    (∀ p ∈ st.subs,
      ((cleanup st).log.drop st.log.length).count (Event.teardownInvoked p.2) = 1) := by
  have hdrop : (cleanup st).log.drop st.log.length =
      st.subs.map (fun p => Event.teardownInvoked p.2) := by
    show (st.log ++ _).drop st.log.length = _
    rw [List.drop_left]
  refine ⟨rfl, ?_, ?_, ?_⟩
  · rw [hdrop, List.length_map]
  · rw [hdrop]
    intro e he
    obtain ⟨p, hp, hpe⟩ := List.mem_map.mp he
    exact ⟨p, hp, hpe.symm⟩
  · intro p hp
    rw [hdrop]
    have hmap : st.subs.map (fun p => Event.teardownInvoked p.2) =
        (st.subs.map Prod.snd).map Event.teardownInvoked := by
      rw [List.map_map]
      rfl
    rw [hmap,
      List.count_map_of_injective (st.subs.map Prod.snd) Event.teardownInvoked
        teardownInvoked_injective p.2]
    exact List.count_eq_one_of_mem hWF.tds_nodup (List.mem_map_of_mem Prod.snd hp)

lemma wf_wTwo : WF (subOk (subOk wInit)) := by
  constructor
  · intro p hp
    simp [subOk, wInit] at hp
    rcases hp with h | h <;> simp [subOk, wInit, h]
  · intro p hp
    simp [subOk, wInit] at hp
    rcases hp with h | h <;> simp [subOk, wInit, h]
  · simp [subOk, wInit]
  · intro e he td hetd
    rw [hetd] at he
    simp [subOk, wInit] at he
  · intro e he s hcb
    simp [subOk, wInit] at he
    rcases he with h | h | h | h <;> subst h <;>
      simp [isCallbackFor, subOk, wInit] at hcb ⊢ <;> omega

/-- Witness for `cleanup_invokes_all_teardowns` at the worker state with
two active subscriptions (entries (0, 0) and (1, 1)). -/
theorem cleanup_invokes_all_teardowns_witness :
    (cleanup (subOk (subOk wInit))).subs = [] ∧
    ((cleanup (subOk (subOk wInit))).log.drop
        (subOk (subOk wInit)).log.length).length =
      (subOk (subOk wInit)).subs.length ∧
    (∀ e ∈ (cleanup (subOk (subOk wInit))).log.drop
        (subOk (subOk wInit)).log.length,
      ∃ p ∈ (subOk (subOk wInit)).subs, e = Event.teardownInvoked p.2) ∧
    (∀ p ∈ (subOk (subOk wInit)).subs,
      ((cleanup (subOk (subOk wInit))).log.drop
          (subOk (subOk wInit)).log.length).count (Event.teardownInvoked p.2) = 1) :=
  cleanup_invokes_all_teardowns (subOk (subOk wInit)) wf_wTwo

/-! ### Claim C7 -/

/-- Invariant of a subscription `s` that was delivered its initial
callback carrying `rows0`: its identifier is below the fresh-id counter,
and the callback invocations delivered to it so far are exactly one
initial callback (the first one) followed by change-triggered callbacks
only. -/
def InitFirst (s : Nat) (rows0 : List Todo) (st : WorkerState) : Prop :=
  s < st.nextSubId ∧
  ∃ tl, cbEventsFor s st.log = Event.initialCallback s rows0 :: tl ∧
    ∀ e ∈ tl, isChangeCb e = true

lemma mem_notifyEvents {subs : List (Nat × Nat)} {rows : List Todo}
    {e : Event} (he : e ∈ subs.map (fun p => Event.changeCallback p.1 rows)) :
    isChangeCb e = true := by
  obtain ⟨p, _, hpe⟩ := List.mem_map.mp he
  rw [← hpe]
  rfl

lemma cbEvents_append_changes {s : Nat} {rows0 : List Todo} {l1 l2 : List Event}
    (h : ∃ tl, cbEventsFor s l1 = Event.initialCallback s rows0 :: tl ∧
      ∀ e ∈ tl, isChangeCb e = true)
    (h2 : ∀ e ∈ l2, isCallbackFor s e = true → isChangeCb e = true) :
    ∃ tl, cbEventsFor s (l1 ++ l2) = Event.initialCallback s rows0 :: tl ∧
      ∀ e ∈ tl, isChangeCb e = true := by
  obtain ⟨tl, htl, hch⟩ := h
  refine ⟨tl ++ cbEventsFor s l2, ?_, ?_⟩
  · rw [cbEventsFor, List.filter_append]
    rw [cbEventsFor] at htl
    rw [htl]
    rfl
  · intro e he
    rcases List.mem_append.mp he with hm | hm
    · exact hch e hm
    · have hmf := List.mem_filter.mp hm
      exact h2 e hmf.1 hmf.2

lemma step_preserves_initFirst {s : Nat} {rows0 : List Todo}
    {st : WorkerState} (op : Op) (h : InitFirst s rows0 st) :
    InitFirst s rows0 (step st op) := by
  obtain ⟨h1, h2⟩ := h
  cases op with
  | add desc =>
    by_cases hinit : st.dbInit = false
    · simpa [step, addTodo, hinit] using ⟨h1, h2⟩
    · by_cases hlen : 255 < desc.length
      · simpa [step, addTodo, hinit, hlen] using ⟨h1, h2⟩
      · have hstep : step st (Op.add desc) = notify { st with
            db := DbState.mk (st.db.nextId + 1)
              (st.db.rows ++ [Todo.mk st.db.nextId desc false]) } := by
          simp [step, addTodo, hinit, hlen]
        rw [hstep]
        exact ⟨h1, cbEvents_append_changes h2 (fun e he _ => mem_notifyEvents he)⟩
  | toggle id =>
    by_cases hinit : st.dbInit = false
    · simpa [step, toggleTodo, hinit] using ⟨h1, h2⟩
    · cases hf : st.db.rows.find? (fun r => r.id == id) with
      | none => simpa [step, toggleTodo, hinit, hf] using ⟨h1, h2⟩
      | some r =>
        have hstep : step st (Op.toggle id) = notify { st with
            db := DbState.mk st.db.nextId
              (st.db.rows.map (fun r =>
                if r.id == id then Todo.mk r.id r.description (!r.completed) else r)) } := by
          simp [step, toggleTodo, hinit, hf]
        rw [hstep]
        exact ⟨h1, cbEvents_append_changes h2 (fun e he _ => mem_notifyEvents he)⟩
  | del id =>
    by_cases hinit : st.dbInit = false
    · simpa [step, deleteTodo, hinit] using ⟨h1, h2⟩
    · have hstep : step st (Op.del id) = notify { st with
          db := DbState.mk st.db.nextId
            (st.db.rows.filter (fun r => r.id != id)) } := by
        simp [step, deleteTodo, hinit]
      rw [hstep]
      exact ⟨h1, cbEvents_append_changes h2 (fun e he _ => mem_notifyEvents he)⟩
  | subscribeOp estOk =>
    by_cases hinit : st.dbInit = false
    · simpa [step, subscribeTodos, hinit] using ⟨h1, h2⟩
    · cases estOk with
      | false => simpa [step, subscribeTodos, hinit] using ⟨h1, h2⟩
      | true =>
        have hstep : step st (Op.subscribeOp true) = subOk st := by
          have hinit2 : st.dbInit = true := by
            cases hb : st.dbInit
            · exact absurd hb hinit
            · rfl
          simp [step, subscribeTodos_eq st hinit2]
        rw [hstep]
        refine ⟨Nat.lt_succ_of_lt h1, cbEvents_append_changes h2 ?_⟩
        intro e he hcb
        simp at he
        rcases he with hr | hr <;> subst hr <;>
          simp [isCallbackFor] at hcb
        omega
  | unsub u =>
    cases hl : lookupSub st.subs u with
    | none => simpa [step, unsubscribe, hl] using ⟨h1, h2⟩
    | some td =>
      have hstep : step st (Op.unsub u) = { st with
          subs := st.subs.eraseP (fun p => p.1 == u)
          log := st.log ++ [Event.teardownInvoked td] } := by
        simp [step, unsubscribe, hl]
      rw [hstep]
      refine ⟨h1, cbEvents_append_changes h2 ?_⟩
      intro e he hcb
      simp at he
      subst he
      simp [isCallbackFor] at hcb
  | cleanupOp =>
    refine ⟨h1, cbEvents_append_changes h2 ?_⟩
    intro e he hcb
    obtain ⟨p, _, hpe⟩ := List.mem_map.mp he
    rw [← hpe] at hcb
    simp [isCallbackFor] at hcb

lemma run_preserves_initFirst {s : Nat} {rows0 : List Todo} (ops : List Op)
    {st : WorkerState} (h : InitFirst s rows0 st) :
    InitFirst s rows0 (run st ops) := by
  induction ops generalizing st with
  | nil => exact h
  | cons op ops ih => exact ih (step_preserves_initFirst op h)

lemma initFirst_subOk (st : WorkerState) (hWF : WF st) :
    InitFirst st.nextSubId (sortByIdDesc st.db.rows) (subOk st) := by
  refine ⟨by simp [subOk], [], ?_, by simp⟩
  rw [show (subOk st).log = st.log ++ [Event.registered st.nextSubId,
      Event.initialCallback st.nextSubId (sortByIdDesc st.db.rows)] from rfl]
  rw [cbEventsFor, List.filter_append]
  have hnil : st.log.filter (isCallbackFor st.nextSubId) = [] :=
    List.filter_eq_nil_iff.mpr
      (fun e he hcb => absurd (hWF.log_cbs_lt e he _ hcb) (lt_irrefl _))
  rw [hnil]
  simp [isCallbackFor]

/-- Claim C7: every successfully established subscription is delivered
exactly one initial callback — carrying the current result set, which is
the empty list (not an error) when the table has no rows — and this
initial callback precedes every change-triggered callback delivered to
that subscription, whatever operations follow: the callback stream of the
subscription is one initial callback followed by change-triggered
callbacks only. -/
theorem subscription_initial_callback_first (st st1 : WorkerState) (s : Nat)
    (hWF : WF st) (h : subscribeTodos st true = (st1, Except.ok s))
    (ops : List Op) :
    (∃ tl, cbEventsFor s (run st1 ops).log =
        Event.initialCallback s (sortByIdDesc st.db.rows) :: tl ∧
        ∀ e ∈ tl, isChangeCb e = true) ∧
    (st.db.rows = [] → sortByIdDesc st.db.rows = []) := by
  obtain ⟨hinit, hst1, hs⟩ := subscribeTodos_ok_inv h
  subst hst1; subst hs
  refine ⟨(run_preserves_initFirst ops (initFirst_subOk st hWF)).2, ?_⟩
  intro h0
  rw [h0]
  rfl

/-- Witness for `subscription_initial_callback_first` at the freshly
initialized worker, with one data change after the subscribe. -/
theorem subscription_initial_callback_first_witness :
    (∃ tl, cbEventsFor 0 (run (subOk wInit) [Op.add "a"]).log =
        Event.initialCallback 0 (sortByIdDesc wInit.db.rows) :: tl ∧
        ∀ e ∈ tl, isChangeCb e = true) ∧
    (wInit.db.rows = [] → sortByIdDesc wInit.db.rows = []) :=
  subscription_initial_callback_first wInit (subOk wInit) 0 wf_wInit
    (subscribeTodos_eq wInit rfl) [Op.add "a"]

/-! ### Claim C10 -/

lemma sort_strictDesc (rows : List Todo) (h : (rows.map Todo.id).Nodup) :
    StrictDesc (sortByIdDesc rows) := by
  have hs : List.Sorted idGe (sortByIdDesc rows) :=
    List.sorted_insertionSort idGe rows
  have hperm : List.Perm (sortByIdDesc rows) rows :=
    List.perm_insertionSort idGe rows
  have hnd : ((sortByIdDesc rows).map Todo.id).Nodup :=
    ((hperm.map Todo.id).nodup_iff).mpr h
  have hne : (sortByIdDesc rows).Pairwise (fun a b => a.id ≠ b.id) :=
    List.pairwise_map.mp hnd
  have hlt : (sortByIdDesc rows).Pairwise (fun a b => b.id < a.id) :=
    (hs.and hne).imp (fun hab => lt_of_le_of_ne hab.1 (Ne.symm hab.2))
  exact hlt.chain'

/-- Well-formedness of the todos table: every stored id is below the
identity counter and the ids are pairwise distinct. -/
def DbWF (db : DbState) : Prop :=
  (∀ r ∈ db.rows, r.id < db.nextId) ∧ (db.rows.map Todo.id).Nodup

/-- Every result set ever delivered to a subscription callback was
strictly descending by id. -/
def GoodLog (st : WorkerState) : Prop :=
  ∀ e ∈ st.log, ∀ rows, rowsDelivered e = some rows → StrictDesc rows

lemma notify_goodLog {st1 : WorkerState}
    (hgl : ∀ e ∈ st1.log, ∀ rows, rowsDelivered e = some rows → StrictDesc rows)
    (hnd : (st1.db.rows.map Todo.id).Nodup) : GoodLog (notify st1) := by
  intro e he rows hr
  rcases List.mem_append.mp he with hm | hm
  · exact hgl e hm rows hr
  · obtain ⟨p, _, hpe⟩ := List.mem_map.mp hm
    rw [← hpe] at hr
    obtain rfl : sortByIdDesc st1.db.rows = rows := Option.some.inj hr
    exact sort_strictDesc _ hnd

lemma step_preserves_sorted {st : WorkerState} (op : Op)
    (h : DbWF st.db ∧ GoodLog st) :
    DbWF (step st op).db ∧ GoodLog (step st op) := by
  obtain ⟨⟨hlt, hnd⟩, hgl⟩ := h
  cases op with
  | add desc =>
    by_cases hinit : st.dbInit = false
    · simpa [step, addTodo, hinit] using ⟨⟨hlt, hnd⟩, hgl⟩
    · by_cases hlen : 255 < desc.length
      · simpa [step, addTodo, hinit, hlen] using ⟨⟨hlt, hnd⟩, hgl⟩
      · have hstep : step st (Op.add desc) = notify { st with
            db := DbState.mk (st.db.nextId + 1)
              (st.db.rows ++ [Todo.mk st.db.nextId desc false]) } := by
          simp [step, addTodo, hinit, hlen]
        rw [hstep]
        have hnotmem : st.db.nextId ∉ st.db.rows.map Todo.id := by
          intro hmem
          obtain ⟨r, hr, hrid⟩ := List.mem_map.mp hmem
          have := hlt r hr
          omega
        have hnd2 : ((st.db.rows ++ [Todo.mk st.db.nextId desc false]).map
            Todo.id).Nodup := by
          rw [List.map_append]
          simp [List.nodup_append, hnd, hnotmem]
        refine ⟨⟨?_, hnd2⟩, notify_goodLog hgl hnd2⟩
        show ∀ r ∈ st.db.rows ++ [Todo.mk st.db.nextId desc false],
          r.id < st.db.nextId + 1
        intro r hr
        rcases List.mem_append.mp hr with hm | hm
        · have := hlt r hm
          omega
        · simp at hm
          subst hm
          show st.db.nextId < st.db.nextId + 1
          omega
  | toggle id =>
    by_cases hinit : st.dbInit = false
    · simpa [step, toggleTodo, hinit] using ⟨⟨hlt, hnd⟩, hgl⟩
    · cases hf : st.db.rows.find? (fun r => r.id == id) with
      | none => simpa [step, toggleTodo, hinit, hf] using ⟨⟨hlt, hnd⟩, hgl⟩
      | some r0 =>
        have hstep : step st (Op.toggle id) = notify { st with
            db := DbState.mk st.db.nextId
              (st.db.rows.map (fun r =>
                if r.id == id then Todo.mk r.id r.description (!r.completed)
                else r)) } := by
          simp [step, toggleTodo, hinit, hf]
        rw [hstep]
        have hids : (st.db.rows.map (fun r =>
            if r.id == id then Todo.mk r.id r.description (!r.completed)
            else r)).map Todo.id = st.db.rows.map Todo.id := by
          rw [List.map_map]
          refine List.map_congr_left ?_
          intro r _
          by_cases hid : r.id = id <;> simp [hid]
        have hnd2 : ((st.db.rows.map (fun r =>
            if r.id == id then Todo.mk r.id r.description (!r.completed)
            else r)).map Todo.id).Nodup := by
          rw [hids]
          exact hnd
        refine ⟨⟨?_, hnd2⟩, notify_goodLog hgl hnd2⟩
        show ∀ r ∈ st.db.rows.map (fun r =>
            if r.id == id then Todo.mk r.id r.description (!r.completed) else r),
          r.id < st.db.nextId
        intro r hr
        obtain ⟨r1, hr1, hre⟩ := List.mem_map.mp hr
        have hidr : r.id = r1.id := by
          rw [← hre]
          by_cases hid : r1.id = id <;> simp [hid]
        rw [hidr]
        exact hlt r1 hr1
  | del id =>
    by_cases hinit : st.dbInit = false
    · simpa [step, deleteTodo, hinit] using ⟨⟨hlt, hnd⟩, hgl⟩
    · have hstep : step st (Op.del id) = notify { st with
          db := DbState.mk st.db.nextId
            (st.db.rows.filter (fun r => r.id != id)) } := by
        simp [step, deleteTodo, hinit]
      rw [hstep]
      have hsub : List.Sublist
          ((st.db.rows.filter (fun r => r.id != id)).map Todo.id)
          (st.db.rows.map Todo.id) :=
        List.Sublist.map Todo.id (List.filter_sublist _)
      have hnd2 : ((st.db.rows.filter (fun r => r.id != id)).map Todo.id).Nodup :=
        hnd.sublist hsub
      refine ⟨⟨?_, hnd2⟩, notify_goodLog hgl hnd2⟩
      show ∀ r ∈ st.db.rows.filter (fun r => r.id != id), r.id < st.db.nextId
      intro r hr
      exact hlt r (List.mem_of_mem_filter hr)
  | subscribeOp estOk =>
    by_cases hinit : st.dbInit = false
    · simpa [step, subscribeTodos, hinit] using ⟨⟨hlt, hnd⟩, hgl⟩
    · cases estOk with
      | false => simpa [step, subscribeTodos, hinit] using ⟨⟨hlt, hnd⟩, hgl⟩
      | true =>
        have hinit2 : st.dbInit = true := by
          cases hb : st.dbInit
          · exact absurd hb hinit
          · rfl
        have hstep : step st (Op.subscribeOp true) = subOk st := by
          simp [step, subscribeTodos_eq st hinit2]
        rw [hstep]
        refine ⟨⟨hlt, hnd⟩, ?_⟩
        intro e he rows hr
        rcases List.mem_append.mp he with hm | hm
        · exact hgl e hm rows hr
        · simp at hm
          rcases hm with hm | hm <;> subst hm
          · cases hr
          · obtain rfl : sortByIdDesc st.db.rows = rows := Option.some.inj hr
            exact sort_strictDesc _ hnd
  | unsub u =>
    cases hl : lookupSub st.subs u with
    | none => simpa [step, unsubscribe, hl] using ⟨⟨hlt, hnd⟩, hgl⟩
    | some td =>
      have hstep : step st (Op.unsub u) = { st with
          subs := st.subs.eraseP (fun p => p.1 == u)
          log := st.log ++ [Event.teardownInvoked td] } := by
        simp [step, unsubscribe, hl]
      rw [hstep]
      refine ⟨⟨hlt, hnd⟩, ?_⟩
      intro e he rows hr
      rcases List.mem_append.mp he with hm | hm
      · exact hgl e hm rows hr
      · simp at hm
        subst hm
        cases hr
  | cleanupOp =>
    refine ⟨⟨hlt, hnd⟩, ?_⟩
    intro e he rows hr
    rcases List.mem_append.mp he with hm | hm
    · exact hgl e hm rows hr
    · obtain ⟨p, _, hpe⟩ := List.mem_map.mp hm
      rw [← hpe] at hr
      cases hr

lemma run_preserves_sorted (ops : List Op) {st : WorkerState}
    (h : DbWF st.db ∧ GoodLog st) :
    DbWF (run st ops).db ∧ GoodLog (run st ops) := by
  induction ops generalizing st with
  | nil => exact h
  | cons op ops ih => exact ih (step_preserves_sorted op h)

/-- Claim C10: in every state the worker can reach from a fresh
initialization, every result set that was delivered to a subscription
callback (initial or change-triggered), and the result of the
repository's `getAll`, is strictly descending by id: each adjacent pair
of rows has the first id greater than the second. -/
theorem delivered_and_getAll_rows_sorted (ops : List Op) :
    (∀ e ∈ (run wInit ops).log, ∀ rows,
      rowsDelivered e = some rows → StrictDesc rows) ∧
    StrictDesc (repGetAll (run wInit ops).db) := by
  have hbase : DbWF wInit.db ∧ GoodLog wInit := by
    refine ⟨⟨?_, ?_⟩, ?_⟩
    · intro r hr
      simp [wInit] at hr
    · simp [wInit]
    · intro e he
      simp [wInit] at he
  have h := run_preserves_sorted ops hbase
  exact ⟨h.2, sort_strictDesc _ h.1.2⟩

end TodoApp
